import Mathlib

/-!
Shallow embedding of the Investment-creator Solana program
(src/instruction.rs, src/processor.rs, src/state.rs) and proofs about the
frozen specification claims.

Conventions of the embedding:
* machine bytes are `Nat` values < 256, byte buffers are `List Nat`;
* `u64` values are `Nat` with `% 2^64` where the source can overflow;
* `i64` values are `Int`, converted through a two..s-complement view at the
  wire boundary;
* fallible Rust code returns `Except`; a Rust `expect`/panic possibility is
  modelled by an outer `Option` (`none` = panic), so totality statements are
  `≠ none`;
* the ledger is a `World`: an association list from addresses to the typed
  account data the program reads and writes; externally visible calls
  (`invoke`/`invoke_signed`) are recorded in order as an `Effect` trace.
-/

/-- On-ledger address. `Pubkey.find_program_address` of solana is an external
collaborator whose concrete hash is out of scope; modelled from the spec
(section 4.2: deterministic, seed-injective with overwhelming probability) as
the symbolic pairing of the ordered seed list with the program id. `ata` is
the associated-token-account derivation of the same symbolic kind. -/
inductive Pubkey where
  | raw : Nat → Pubkey
  | pda : List (List Nat) → Pubkey → Pubkey
  | ata : Pubkey → Pubkey → Pubkey
deriving DecidableEq, Repr

/-- Byte view of an address, used when an address is itself seed material
(`pubkey.as_ref()` in the source). Symbolic, like the derivation itself. -/
def Pubkey.as_ref : Pubkey → List Nat
  | .raw n => [0, n]
  | .pda seeds pk => 1 :: (seeds.foldr (· ++ ·) [] ++ pk.as_ref)
  | .ata a b => 2 :: (a.as_ref ++ b.as_ref)

/-- Model of `Pubkey::find_program_address` (bump seed not modelled; the
source only threads the bump into signer seeds of invokes). -/
def findProgramAddress (seeds : List (List Nat)) (programId : Pubkey) : Pubkey :=
  .pda seeds programId

/-- Model of `spl_associated_token_account::get_associated_token_address`. -/
def associatedTokenAddress (wallet mint : Pubkey) : Pubkey :=
  .ata wallet mint

/-- Error values. `errors.rs` is not among the provided sources; the
constructors actually returned are the variants the processor and the codec
name (`InstructionUnpackError`, `InvalidInstruction`,
`MissingRequiredSignature`, `InvalidAccountData`), plus the generic
`ProgramError` values the runtime helpers produce. Modelled from the spec:
the remaining constructors are the error kinds section 7 of the spec lists
(`AlreadyVoted`, `DeadlinePassed`, `LengthMismatch`,
`InsufficientAccounts`), included so that claims naming them are statable. -/
inductive PErr where
  | instructionUnpackError
  | invalidInstructionData
  | invalidInstruction
  | missingRequiredSignature
  | invalidAccountData
  | notEnoughAccountKeys
  | borshIoError
  | alreadyVoted
  | deadlinePassed
  | lengthMismatch
  | insufficientAccounts
deriving DecidableEq, Repr

/-- Result of code that can error or panic: `none` models a reached
`expect`/panic, `some (.error e)` a returned error, `some (.ok a)` success. -/
def Res (α : Type) : Type := Option (Except PErr α)

/-- Sequencing for `Res`: propagate panic and error. -/
def rbind {α β : Type} (x : Res α) (f : α → Res β) : Res β :=
  match x with
  | none => none
  | some (.error e) => some (.error e)
  | some (.ok a) => f a

/-- Little-endian bytes of a value, fixed width (`to_le_bytes`). -/
def toLE : Nat → Nat → List Nat
  | 0, _ => []
  | n + 1, v => v % 256 :: toLE n (v / 256)

/-- Value of a little-endian byte list (`from_le_bytes`). -/
def fromLE : List Nat → Nat
  | [] => 0
  | b :: r => b + 256 * fromLE r

/-- Two..s-complement reading of a 64-bit pattern as `i64`. -/
def natToI64 (n : Nat) : Int :=
  if n < 2 ^ 63 then (n : Int) else (n : Int) - 2 ^ 64

/-- 64-bit pattern of an `i64` value. -/
def i64ToNat (d : Int) : Nat :=
  (d % 2 ^ 64).toNat

/-- Model of `<&[u8] as TryInto<[u8; 8]>>::try_into`: succeeds exactly on
8-byte slices. -/
def tryInto8 (l : List Nat) : Option (List Nat) :=
  if l.length = 8 then some l else none

/-- Model of `std::str::from_utf8(..).is_ok()`: the exact UTF-8 validity
check on a byte list (lead-byte ranges, continuation ranges, surrogate and
overlong exclusions, as in the Rust standard library). -/
def validUtf8 : List Nat → Bool
  | [] => true
  | b :: rest =>
    if b ≤ 0x7F then validUtf8 rest
    else if b < 0xC2 then false
    else if b ≤ 0xDF then
      match rest with
      | c1 :: r => decide (0x80 ≤ c1 ∧ c1 ≤ 0xBF) && validUtf8 r
      | [] => false
    else if b = 0xE0 then
      match rest with
      | c1 :: c2 :: r =>
        decide (0xA0 ≤ c1 ∧ c1 ≤ 0xBF) && decide (0x80 ≤ c2 ∧ c2 ≤ 0xBF) && validUtf8 r
      | _ => false
    else if b ≤ 0xEC then
      match rest with
      | c1 :: c2 :: r =>
        decide (0x80 ≤ c1 ∧ c1 ≤ 0xBF) && decide (0x80 ≤ c2 ∧ c2 ≤ 0xBF) && validUtf8 r
      | _ => false
    else if b = 0xED then
      match rest with
      | c1 :: c2 :: r =>
        decide (0x80 ≤ c1 ∧ c1 ≤ 0x9F) && decide (0x80 ≤ c2 ∧ c2 ≤ 0xBF) && validUtf8 r
      | _ => false
    else if b ≤ 0xEF then
      match rest with
      | c1 :: c2 :: r =>
        decide (0x80 ≤ c1 ∧ c1 ≤ 0xBF) && decide (0x80 ≤ c2 ∧ c2 ≤ 0xBF) && validUtf8 r
      | _ => false
    else if b = 0xF0 then
      match rest with
      | c1 :: c2 :: c3 :: r =>
        decide (0x90 ≤ c1 ∧ c1 ≤ 0xBF) && decide (0x80 ≤ c2 ∧ c2 ≤ 0xBF) &&
          decide (0x80 ≤ c3 ∧ c3 ≤ 0xBF) && validUtf8 r
      | _ => false
    else if b ≤ 0xF3 then
      match rest with
      | c1 :: c2 :: c3 :: r =>
        decide (0x80 ≤ c1 ∧ c1 ≤ 0xBF) && decide (0x80 ≤ c2 ∧ c2 ≤ 0xBF) &&
          decide (0x80 ≤ c3 ∧ c3 ≤ 0xBF) && validUtf8 r
      | _ => false
    else if b = 0xF4 then
      match rest with
      | c1 :: c2 :: c3 :: r =>
        decide (0x80 ≤ c1 ∧ c1 ≤ 0x8F) && decide (0x80 ≤ c2 ∧ c2 ≤ 0xBF) &&
          decide (0x80 ≤ c3 ∧ c3 ≤ 0xBF) && validUtf8 r
      | _ => false
    else false

/-- The instruction enum of src/instruction.rs. `String` payloads are kept
as their UTF-8 byte lists (a Rust `String` is exactly its valid UTF-8
bytes); `Vote.fund_name` is `Vec<u8>` in the source and is a byte list
here too. The `Execute` variant exists in the source enum but no opcode of
`unpack` produces it. -/
inductive FundInstruction where
  | InitFundAccount (privacy : Nat) (fund_name : List Nat)
  | InitUserAccount
  | AddFundMember (fund_name : List Nat)
  | InitDepositSol (amount : Nat) (fund_name : List Nat)
  | InitDepositToken (amount : Nat) (fund_name : List Nat)
  | InitProposalInvestment (amounts : List Nat) (deadline : Int) (fund_name : List Nat)
  | Vote (vote : Nat) (fund_name : List Nat)
  | DeleteFund
  | InitRentAccount
  | ExecuteProposalInvestment
  | Execute (proposal : Pubkey)
  | LeaveFund (fund_name : List Nat)
deriving DecidableEq, Repr

/-- `FundInstruction::unpack_members`: split off one byte. -/
def unpack_members (input : List Nat) : Res (Nat × List Nat) :=
  match input with
  | [] => some (.error .instructionUnpackError)
  | b :: rest => some (.ok (b, rest))

/-- Byte-pushing loop of `FundInstruction::unpack_seed`. -/
def seedGo : Nat → List Nat → Res (List Nat × List Nat)
  | 0, l => some (.ok ([], l))
  | _ + 1, [] => some (.error .instructionUnpackError)
  | n + 1, b :: r => rbind (seedGo n r) fun p => some (.ok (b :: p.1, p.2))

/-- `FundInstruction::unpack_seed`: length check then a 32-iteration
byte-pushing loop (PUBKEY_BYTES = 32). -/
def unpack_seed (input : List Nat) : Res (List Nat × List Nat) :=
  if input.length < 32 then some (.error .instructionUnpackError)
  else seedGo 32 input

/-- `FundInstruction::unpack_amount`: length check, `split_at(8)`, then the
`try_into().expect(..)` conversion — `none` models the panic of `expect`. -/
def unpack_amount (input : List Nat) : Res (Nat × List Nat) :=
  if input.length < 8 then some (.error .instructionUnpackError)
  else
    match tryInto8 (input.take 8) with
    | some bs => some (.ok (fromLE bs, input.drop 8))
    | none => none

/-- Amount-pushing loop of `FundInstruction::unpack_amounts`. -/
def amountsGo : Nat → List Nat → Res (List Nat × List Nat)
  | 0, l => some (.ok ([], l))
  | n + 1, input =>
    rbind (unpack_amount input) fun ar =>
      rbind (amountsGo n ar.2) fun p => some (.ok (ar.1 :: p.1, p.2))

/-- `FundInstruction::unpack_amounts`: total length check then the loop of
`unpack_amount` calls. -/
def unpack_amounts (input : List Nat) (num_of_swaps : Nat) : Res (List Nat × List Nat) :=
  if input.length < 8 * num_of_swaps then some (.error .instructionUnpackError)
  else amountsGo num_of_swaps input

/-- `FundInstruction::unpack_deadline`: length check, `split_at(8)`,
`try_into().expect(..)` (panic modelled as `none`), `i64::from_le_bytes`. -/
def unpack_deadline (input : List Nat) : Res (Int × List Nat) :=
  if input.length < 8 then some (.error .instructionUnpackError)
  else
    match tryInto8 (input.take 8) with
    | some bs => some (.ok (natToI64 (fromLE bs), input.drop 8))
    | none => none

/-- Trailing text field: `std::str::from_utf8(rest)` then `to_string`. -/
def trailingName (rest : List Nat) : Res (List Nat) :=
  if validUtf8 rest then some (.ok rest) else some (.error .invalidInstructionData)

/-- `FundInstruction::unpack` of src/instruction.rs, tag dispatch on byte 0,
faithful to the per-opcode field order of the source (the `dex_tags` read
of opcode 2 is commented out in the source and therefore absent here). -/
def unpack (input : List Nat) : Res FundInstruction :=
  match input with
  | [] => some (.error .instructionUnpackError)
  | tag :: rest =>
    match tag with
    | 0 =>
      rbind (unpack_members rest) fun pr =>
        rbind (trailingName pr.2) fun name =>
          some (.ok (.InitFundAccount pr.1 name))
    | 1 =>
      rbind (unpack_amount rest) fun ar =>
        rbind (trailingName ar.2) fun name =>
          some (.ok (.InitDepositSol ar.1 name))
    | 2 =>
      rbind (unpack_members rest) fun nr =>
        rbind (unpack_amounts nr.2 nr.1) fun ar =>
          rbind (unpack_deadline ar.2) fun dr =>
            rbind (trailingName dr.2) fun name =>
              some (.ok (.InitProposalInvestment ar.1 dr.1 name))
    | 3 =>
      rbind (unpack_members rest) fun vr =>
        rbind (unpack_seed vr.2) fun sr =>
          some (.ok (.Vote vr.1 sr.1))
    | 4 =>
      rbind (trailingName rest) fun name => some (.ok (.AddFundMember name))
    | 5 => some (.ok .ExecuteProposalInvestment)
    | 6 => some (.ok .InitRentAccount)
    | 7 => some (.ok .InitUserAccount)
    | 8 =>
      rbind (unpack_amount rest) fun ar =>
        rbind (trailingName ar.2) fun name =>
          some (.ok (.InitDepositToken ar.1 name))
    | 9 => some (.ok .DeleteFund)
    | 10 =>
      rbind (trailingName rest) fun name => some (.ok (.LeaveFund name))
    | _ => some (.error .instructionUnpackError)

/-- Concatenated 8-byte little-endian encodings of a list of amounts. -/
def amountsBytes : List Nat → List Nat
  | [] => []
  | a :: t => toLE 8 a ++ amountsBytes t

/-- Modelled from the spec: the client-side encoder (sections 4.1 and 6 —
1-byte opcode, little-endian fixed-width integers, fixed-length seed
chunks, trailing UTF-8 text), inverse of the positional layout `unpack`
reads. No encoder exists under src/; the `Execute` variant has no opcode
in `unpack` and hence no wire encoding. -/
def pack : FundInstruction → List Nat
  | .InitFundAccount privacy name => 0 :: privacy :: name
  | .InitDepositSol amount name => 1 :: (toLE 8 amount ++ name)
  | .InitProposalInvestment amounts deadline name =>
      2 :: amounts.length :: (amountsBytes amounts ++ toLE 8 (i64ToNat deadline) ++ name)
  | .Vote vote seed => 3 :: vote :: seed
  | .AddFundMember name => 4 :: name
  | .ExecuteProposalInvestment => [5]
  | .InitRentAccount => [6]
  | .InitUserAccount => [7]
  | .InitDepositToken amount name => 8 :: (toLE 8 amount ++ name)
  | .DeleteFund => [9]
  | .LeaveFund name => 10 :: name
  | .Execute _ => []

/-- Well-formed wire commands: field values that fit their fixed-width
encodings (u64 amounts, u8 counts and flags, i64 deadline range, 32-byte
seed, valid UTF-8 trailing text). The stray `Execute` variant is excluded:
`unpack` never produces it and no encoding of it exists. -/
def wfWire : FundInstruction → Bool
  | .InitFundAccount privacy name => decide (privacy < 256) && validUtf8 name
  | .InitDepositSol amount name => decide (amount < 2 ^ 64) && validUtf8 name
  | .InitProposalInvestment amounts deadline name =>
      decide (amounts.length < 256) && amounts.all (fun a => decide (a < 2 ^ 64)) &&
        decide (-(2 ^ 63 : Int) ≤ deadline) && decide (deadline < 2 ^ 63) && validUtf8 name
  | .Vote vote seed =>
      decide (vote < 256) && decide (seed.length = 32) && seed.all (fun b => decide (b < 256))
  | .AddFundMember name => validUtf8 name
  | .InitDepositToken amount name => decide (amount < 2 ^ 64) && validUtf8 name
  | .LeaveFund name => validUtf8 name
  | .Execute _ => false
  | _ => true

/-- Buffer lengths that cut the encoding of a command strictly inside its
opcode byte or one of its fixed-width fields (truncation points; trailing
variable-length text is not fixed-width). -/
def fixedCuts : FundInstruction → List Nat
  | .InitFundAccount _ _ => [0, 1]
  | .InitDepositSol _ _ => List.range 9
  | .InitDepositToken _ _ => List.range 9
  | .InitProposalInvestment amounts _ _ => List.range (10 + 8 * amounts.length)
  | .Vote _ _ => List.range 34
  | .AddFundMember _ => [0]
  | .LeaveFund _ => [0]
  | .Execute _ => []
  | _ => [0]

/-- Decoder outcome is a returned error (not success and not panic). -/
def isErrRes {α : Type} : Res α → Bool
  | some (.error _) => true
  | _ => false

/-- Seed bytes of the literal `b"fund"`. -/
def fundTag : List Nat := [102, 117, 110, 100]

/-- Seed bytes of the literal `b"fund_pda"`. -/
def fundPdaTag : List Nat := [102, 117, 110, 100, 95, 112, 100, 97]

/-- Seed bytes of the literal `b"vault"`. -/
def vaultTag : List Nat := [118, 97, 117, 108, 116]

/-- Seed bytes of the literal `b"user_pda"`. -/
def userPdaTag : List Nat := [117, 115, 101, 114, 95, 112, 100, 97]

/-- Seed bytes of the literal `b"user_69"`. -/
def user69Tag : List Nat := [117, 115, 101, 114, 95, 54, 57]

/-- Seed bytes of the literal `b"proposer_pda"`. -/
def proposerPdaTag : List Nat := [112, 114, 111, 112, 111, 115, 101, 114, 95, 112, 100, 97]

/-- Seed bytes of the literal `b"proposal_pda"`. -/
def proposalPdaTag : List Nat := [112, 114, 111, 112, 111, 115, 97, 108, 95, 112, 100, 97]

/-- Fund address as `process_init_fund_account` derives it
(processor.rs line 93): seeds `[user_seeds, b"fund"]`. -/
def fundAddressCreate (userSeeds : List Nat) (programId : Pubkey) : Pubkey :=
  findProgramAddress [userSeeds, fundTag] programId

/-- Fund address as `process_init_deposit_sol` derives it
(processor.rs line 218): seeds `[b"fund", user_seeds]`. -/
def fundAddressDeposit (userSeeds : List Nat) (programId : Pubkey) : Pubkey :=
  findProgramAddress [fundTag, userSeeds] programId

/-- Fund address as `process_init_proposal_creation` derives it
(processor.rs line 321): seeds `[b"fund_pda", user_seeds]`. -/
def fundAddressProposal (userSeeds : List Nat) (programId : Pubkey) : Pubkey :=
  findProgramAddress [fundPdaTag, userSeeds] programId

/-- Fund address as `process_init_voting` derives it
(processor.rs line 444): seeds `[b"fund_pda", user_seed]`. -/
def fundAddressVoting (userSeeds : List Nat) (programId : Pubkey) : Pubkey :=
  findProgramAddress [fundPdaTag, userSeeds] programId

/-- `FundAccount` with exactly the fields the processor reads and the
struct literal at processor.rs lines 179-185 writes. (The `FundAccount`
declared in the provided src/state.rs has a different field set; the
processor is the source the claims cite, so its usage is embedded.) -/
structure FundAccount where
  members : List Pubkey
  total_deposit : Nat
  governance_mint : Pubkey
  vault : Pubkey
  is_initialized : Bool
deriving DecidableEq, Repr

/-- `UserspecificAccount` with exactly the fields the processor reads and
writes (processor.rs lines 286-292 and 331, 399); its declaration is not
among the provided sources. -/
structure UserspecificAccount where
  deposit : Nat
  governance_token_balance : Nat
  is_active : Bool
  user : Pubkey
  governance_token_account : Pubkey
  number_of_proposals : Nat
deriving DecidableEq, Repr

/-- `ProposalAccount` as the struct literal at processor.rs lines 385-395
builds it and `process_init_voting` reads it. -/
structure ProposalAccount where
  proposer : Pubkey
  from_asset : List Pubkey
  to_asset : List Pubkey
  amount : List Nat
  dex : List Nat
  votes_yes : Nat
  votes_no : Nat
  deadline : Int
  executed : Bool
deriving DecidableEq, Repr

/-- `VotingAccount` fields as the processor sets them (voting power and
boolean choice, processor.rs lines 493-501) plus the voter identity the
spec says the record holds (its declaration is not among the provided
sources; src/state.rs declares a differing `VoteAccount`). The processor
never assigns `voter`. -/
structure VotingAccount where
  voter : Pubkey
  vote : Bool
  voting_power : Nat
deriving DecidableEq, Repr

/-- The only field of `spl_token::state::Account` the processor reads. -/
structure TokenAccount where
  amount : Nat
deriving DecidableEq, Repr

/-- Typed content of an account data buffer. `empty` is a zero-length
buffer, `zeroed n` an allocated but never-written buffer of n zero bytes
(what `create_account` leaves behind). -/
inductive AccountData where
  | empty
  | zeroed (n : Nat)
  | fund (d : FundAccount)
  | user (d : UserspecificAccount)
  | proposal (d : ProposalAccount)
  | voteRec (d : VotingAccount)
  | token (d : TokenAccount)
deriving DecidableEq, Repr

/-- `AccountInfo::data_is_empty`: the data buffer has length zero. -/
def isEmptyData : AccountData → Bool
  | .empty => true
  | .zeroed n => n == 0
  | _ => false

/-- The ledger account store: address-keyed data buffers. -/
def World : Type := List (Pubkey × AccountData)

instance : DecidableEq World := inferInstanceAs (DecidableEq (List (Pubkey × AccountData)))

/-- Data at an address (absent addresses read as empty buffers). -/
def worldGet : World → Pubkey → AccountData
  | [], _ => .empty
  | (k, d) :: rest, key => if k = key then d else worldGet rest key

/-- Write data at an address. -/
def worldSet : World → Pubkey → AccountData → World
  | [], key, d => [(key, d)]
  | (k, d0) :: rest, key, d => if k = key then (key, d) :: rest else (k, d0) :: worldSet rest key d

/-- `FundAccount::try_from_slice`: succeeds only on a buffer holding a
serialized `FundAccount`. -/
def tryFund : AccountData → Except PErr FundAccount
  | .fund d => .ok d
  | _ => .error .borshIoError

/-- `UserspecificAccount::try_from_slice`. -/
def tryUser : AccountData → Except PErr UserspecificAccount
  | .user d => .ok d
  | _ => .error .borshIoError

/-- `ProposalAccount::try_from_slice`. -/
def tryProposal : AccountData → Except PErr ProposalAccount
  | .proposal d => .ok d
  | _ => .error .borshIoError

/-- `VotingAccount::try_from_slice`. The layout of the missing declaration
is unknown; modelled from the spec so that the freshly created zero-filled
33-byte vote buffer deserializes to the all-zero record (the reading under
which the voting flow proceeds past this read). -/
def tryVoting : AccountData → Except PErr VotingAccount
  | .voteRec d => .ok d
  | .zeroed 33 => .ok ⟨.raw 0, false, 0⟩
  | _ => .error .borshIoError

/-- `spl_token::state::Account::unpack`. -/
def tryToken : AccountData → Except PErr TokenAccount
  | .token d => .ok d
  | _ => .error .invalidAccountData

/-- An account as handed to the entrypoint: its address and whether it
signed the command. -/
structure AccountMeta where
  key : Pubkey
  isSigner : Bool
deriving DecidableEq, Repr

/-- Externally visible calls a flow issues (`invoke`/`invoke_signed`),
recorded in program order. -/
inductive Effect where
  | transfer (source dest : Pubkey) (amount : Nat)
  | createAccount (payer newAccount : Pubkey) (lamports space : Nat) (owner : Pubkey)
  | createATA (payer wallet mint : Pubkey)
  | mintTo (mint dest authority : Pubkey) (amount : Nat)
  | initMint (mint authority : Pubkey) (decimals : Nat)
deriving DecidableEq, Repr

/-- Ledger update of a `mint_to` call: credit the destination token
account (the token sub-service is an external collaborator; only the
balance bookkeeping the later flows read back is modelled). -/
def applyMintTo (w : World) (dest : Pubkey) (amount : Nat) : World :=
  match worldGet w dest with
  | .token t => worldSet w dest (.token ⟨(t.amount + amount) % 2 ^ 64⟩)
  | _ => w

/-- `process_init_fund_account` (processor.rs lines 61-189). Accounts in
order: governance mint, vault, system program, token program, fund, rent
account, then the member accounts. Returns the ordered effect trace and
either an error or the updated ledger. (With `number_of_members = 0` the
source divides by zero and aborts; the Nat division here is only read for
nonzero member counts.) -/
def processInitFundAccount (mb : Nat → Nat) (programId : Pubkey)
    (accounts : List AccountMeta) (number_of_members : Nat) (user_seeds : List Nat)
    (w : World) : List Effect × Except PErr World :=
  match accounts with
  | mintA :: vaultA :: _sysA :: tokA :: fundA :: rentA :: rest =>
    let members := rest.take number_of_members
    if members.length ≠ number_of_members ∨ ¬ (members.all (·.isSigner)) then
      ([], .error .missingRequiredSignature)
    else
      let member_pubkeys := members.map (·.key)
      let fund_pda := fundAddressCreate user_seeds programId
      let vault_pda := findProgramAddress [vaultTag, fund_pda.as_ref] programId
      if fundA.key ≠ fund_pda ∨ vaultA.key ≠ vault_pda then
        ([], .error .invalidAccountData)
      else
        let fund_space := 73 + 32 * number_of_members
        let vault_space := 165
        let mint_space := 82
        let total_rent := (mb fund_space + mb vault_space + mb mint_space) % 2 ^ 64
        let rent_per_member := total_rent / number_of_members
        let transfers := member_pubkeys.map fun m => Effect.transfer m rentA.key rent_per_member
        let effects := transfers ++
          [Effect.createAccount rentA.key fundA.key (mb fund_space) fund_space programId,
           Effect.createAccount rentA.key vaultA.key (mb vault_space) vault_space tokA.key,
           Effect.createAccount rentA.key mintA.key (mb mint_space) mint_space tokA.key,
           Effect.initMint mintA.key fundA.key 6]
        let w1 := worldSet (worldSet (worldSet w fundA.key (.zeroed fund_space))
          vaultA.key (.zeroed vault_space)) mintA.key (.zeroed mint_space)
        let fund_data : FundAccount :=
          { members := member_pubkeys, total_deposit := 0, governance_mint := mintA.key,
            vault := vaultA.key, is_initialized := true }
        (effects, .ok (worldSet w1 fundA.key (.fund fund_data)))
  | _ => ([], .error .notEnoughAccountKeys)

/-- `process_init_deposit_sol` (processor.rs lines 191-295). Accounts in
order: governance mint, vault, fund, system program, token program,
governance token account, member wallet, user-specific PDA. The associated
token account creation, the transfer into the vault and the 1:1 mint are
all inside the `data_is_empty` branch, exactly as in the source. -/
def processInitDepositSol (programId : Pubkey) (accounts : List AccountMeta)
    (amount : Nat) (user_seeds : List Nat) (w : World) :
    List Effect × Except PErr World :=
  match accounts with
  | mintA :: vaultA :: fundA :: _sysA :: _tokA :: gtaA :: memberA :: userA :: _ =>
    if ¬ memberA.isSigner then ([], .error .missingRequiredSignature)
    else
      match tryFund (worldGet w fundA.key) with
      | .error e => ([], .error e)
      | .ok fund_data =>
        let fund_pda := fundAddressDeposit user_seeds programId
        let vault_pda := findProgramAddress [vaultTag, fund_pda.as_ref] programId
        let user_pda := findProgramAddress [userPdaTag, fund_pda.as_ref, memberA.key.as_ref] programId
        if fundA.key ≠ fund_pda ∨ vaultA.key ≠ vault_pda ∨ userA.key ≠ user_pda then
          ([], .error .invalidAccountData)
        else if fund_data.governance_mint ≠ mintA.key then
          ([], .error .invalidAccountData)
        else
          let branch :=
            if isEmptyData (worldGet w gtaA.key) then
              let wA := worldSet w (associatedTokenAddress memberA.key mintA.key) (.token ⟨0⟩)
              let wB := applyMintTo wA gtaA.key amount
              ([Effect.createATA memberA.key memberA.key mintA.key,
                Effect.transfer memberA.key vaultA.key amount,
                Effect.mintTo mintA.key gtaA.key fundA.key amount], wB)
            else ([], w)
          match tryFund (worldGet branch.2 fundA.key) with
          | .error e => (branch.1, .error e)
          | .ok fd2 =>
            let fd3 := { fd2 with total_deposit := (fd2.total_deposit + amount) % 2 ^ 64 }
            let w2 := worldSet branch.2 fundA.key (.fund fd3)
            match tryUser (worldGet w2 userA.key) with
            | .error e => (branch.1, .error e)
            | .ok ud =>
              let ud2 : UserspecificAccount :=
                { deposit := (ud.deposit + amount) % 2 ^ 64,
                  governance_token_balance := (ud.governance_token_balance + amount) % 2 ^ 64,
                  is_active := true, user := userA.key,
                  governance_token_account := gtaA.key,
                  number_of_proposals := ud.number_of_proposals }
              (branch.1, .ok (worldSet w2 userA.key (.user ud2)))
  | _ => ([], .error .notEnoughAccountKeys)

/-- `process_init_proposal_creation` (processor.rs lines 297-402). Accounts
in order: proposer, proposal, fund, user-specific PDA, system program,
then the from-asset and to-asset accounts. The proposal account creation
happens before the from/to asset count checks, and no comparison between
the lengths of `amounts` and `dex` exists, exactly as in the source. The
increment of `number_of_proposals` at line 399 mutates a local copy that
is never serialized, so no user write-back occurs. -/
def processInitProposalCreation (mb : Nat → Nat) (programId : Pubkey)
    (accounts : List AccountMeta) (amounts : List Nat) (dex : List Nat)
    (deadline : Int) (user_seeds : List Nat) (w : World) :
    List Effect × Except PErr World :=
  match accounts with
  | proposerA :: proposalA :: fundA :: userA :: _sysA :: rest =>
    if ¬ proposerA.isSigner then ([], .error .invalidAccountData)
    else
      let fund_pda := fundAddressProposal user_seeds programId
      let proposal_pda :=
        findProgramAddress [proposerPdaTag, fundA.key.as_ref, proposerA.key.as_ref] programId
      match tryUser (worldGet w userA.key) with
      | .error e => ([], .error e)
      | .ok _user_data =>
        let user_pda :=
          findProgramAddress [user69Tag, fundA.key.as_ref, proposerA.key.as_ref] programId
        if fundA.key ≠ fund_pda ∨ proposalA.key ≠ proposal_pda ∨ userA.key ≠ user_pda then
          ([], .error .invalidAccountData)
        else
          let proposal_space := 43 + amounts.length * 73
          let total_rent := mb proposal_space
          let eff := Effect.createAccount proposerA.key proposalA.key total_rent proposal_space programId
          let w1 := worldSet w proposalA.key (.zeroed proposal_space)
          let from_assets := rest.take amounts.length
          if from_assets.length ≠ amounts.length then ([eff], .error .invalidAccountData)
          else
            let rest2 := rest.drop amounts.length
            let to_assets := rest2.take amounts.length
            if to_assets.length ≠ amounts.length then ([eff], .error .invalidAccountData)
            else
              let proposal_data : ProposalAccount :=
                { proposer := proposerA.key,
                  from_asset := from_assets.map (·.key),
                  to_asset := to_assets.map (·.key),
                  amount := amounts, dex := dex,
                  votes_yes := 0, votes_no := 0,
                  deadline := deadline, executed := false }
              ([eff], .ok (worldSet w1 proposalA.key (.proposal proposal_data)))
  | _ => ([], .error .notEnoughAccountKeys)

/-- `process_init_voting` (processor.rs lines 404-508). Accounts in order:
voter, vote, system program, fund, proposal, user-specific PDA, governance
mint, voter governance token account. `now` is the host clock reading.
In the fresh-vote branch the voting power and the choice are computed into
a local record that the source never serializes back, so the vote account
keeps its 33 zero bytes; in the other branch the call fails (the source
logs "Already voted!") with `FundError::InvalidInstruction`. -/
def processInitVoting (mb : Nat → Nat) (programId : Pubkey)
    (accounts : List AccountMeta) (vote : Nat) (user_seed : List Nat)
    (now : Int) (w : World) : List Effect × Except PErr World :=
  match accounts with
  | voterA :: voteA :: sysA :: fundA :: proposalA :: userA :: mintA :: gtaA :: _ =>
    if ¬ voterA.isSigner then ([], .error .invalidAccountData)
    else
      match tryFund (worldGet w fundA.key) with
      | .error e => ([], .error e)
      | .ok fund_data =>
        match tryProposal (worldGet w proposalA.key) with
        | .error e => ([], .error e)
        | .ok proposal_data =>
          match tryUser (worldGet w userA.key) with
          | .error e => ([], .error e)
          | .ok user_data =>
            if proposal_data.deadline < now then ([], .error .invalidInstruction)
            else
              let proposal_pda :=
                findProgramAddress [proposalPdaTag, fundA.key.as_ref, voterA.key.as_ref] programId
              let fund_pda := fundAddressVoting user_seed programId
              let user_pda :=
                findProgramAddress [userPdaTag, fundA.key.as_ref, voterA.key.as_ref] programId
              let token_account := associatedTokenAddress voterA.key mintA.key
              if mintA.key ≠ fund_data.governance_mint ∨ proposalA.key ≠ proposal_pda ∨
                  fundA.key ≠ fund_pda ∨ userA.key ≠ user_pda ∨
                  token_account ≠ user_data.governance_token_account then
                ([], .error .invalidAccountData)
              else
                let vote_space := 33
                let total_rent := mb vote_space
                if isEmptyData (worldGet w voteA.key) then
                  let w1 := worldSet w voteA.key (.zeroed vote_space)
                  let eff := Effect.createAccount voterA.key voteA.key total_rent vote_space sysA.key
                  match tryToken (worldGet w1 gtaA.key) with
                  | .error e => ([eff], .error e)
                  | .ok token_data =>
                    match tryVoting (worldGet w1 voteA.key) with
                    | .error e => ([eff], .error e)
                    | .ok voter_data =>
                      let voting_power := token_data.amount
                      let vd1 := { voter_data with voting_power := voting_power }
                      let vd2 := if vote ≠ 1 then { vd1 with vote := false } else vd1
                      let _vd3 := if vote = 1 then { vd2 with vote := true } else vd2
                      ([eff], .ok w1)
                else ([], .error .invalidInstruction)
  | _ => ([], .error .notEnoughAccountKeys)

/-- Balance of the token account stored at an address (0 when none). -/
def tokenAmountAt (w : World) (k : Pubkey) : Nat :=
  match worldGet w k with
  | .token t => t.amount
  | _ => 0

/-- Mirrored governance-token balance of the member record at an address. -/
def mirrorBalanceAt (w : World) (k : Pubkey) : Nat :=
  match worldGet w k with
  | .user u => u.governance_token_balance
  | _ => 0

/-- `total_deposit` of the fund record at an address. -/
def totalDepositAt (w : World) (k : Pubkey) : Nat :=
  match worldGet w k with
  | .fund f => f.total_deposit
  | _ => 0

/-- Program id used by the concrete scenarios. -/
def pid0 : Pubkey := .raw 0

/-- A concrete storage-cost ("rent") function for the scenarios: the host
rent oracle is external, any function of the byte size works. -/
def mb0 : Nat → Nat := fun n => 100 + 10 * n

/-- System program address of the scenarios. -/
def sysK : Pubkey := .raw 90

/-- Token program address of the scenarios. -/
def tokK : Pubkey := .raw 91

/-- Governance mint address of the scenarios. -/
def mintK : Pubkey := .raw 30

/-- Voter wallet of the voting scenario. -/
def voterK : Pubkey := .raw 7

/-- User seed bytes of the voting scenario. -/
def seedA : List Nat := [1]

/-- Fund address the voting flow expects for `seedA`. -/
def fundK : Pubkey := fundAddressVoting seedA pid0

/-- Proposal address the voting flow expects. -/
def proposalK : Pubkey := findProgramAddress [proposalPdaTag, fundK.as_ref, voterK.as_ref] pid0

/-- User-specific PDA the voting flow expects. -/
def userK : Pubkey := findProgramAddress [userPdaTag, fundK.as_ref, voterK.as_ref] pid0

/-- Voter governance token account (the associated token account). -/
def gtaK : Pubkey := associatedTokenAddress voterK mintK

/-- Vote account address of the scenario (never re-derived by the flow). -/
def voteK : Pubkey := .raw 40

/-- Fund record of the voting scenario. -/
def fd0 : FundAccount :=
  { members := [voterK], total_deposit := 0, governance_mint := mintK,
    vault := .raw 60, is_initialized := true }

/-- Proposal record of the voting scenario, deadline 1000, zero tallies. -/
def pd0 : ProposalAccount :=
  { proposer := voterK, from_asset := [], to_asset := [], amount := [], dex := [],
    votes_yes := 0, votes_no := 0, deadline := 1000, executed := false }

/-- Member record of the voting scenario. -/
def ud0 : UserspecificAccount :=
  { deposit := 100, governance_token_balance := 100, is_active := true,
    user := userK, governance_token_account := gtaK, number_of_proposals := 0 }

/-- Ledger before the first vote: fund, proposal and member records in
place, the voter holds 500 governance tokens, no vote account yet. -/
def voteWorld : World :=
  [(fundK, .fund fd0), (proposalK, .proposal pd0), (userK, .user ud0),
   (gtaK, .token ⟨500⟩)]

/-- Account list of the CastVote calls (voter signs). -/
def voteAccounts : List AccountMeta :=
  [⟨voterK, true⟩, ⟨voteK, false⟩, ⟨sysK, false⟩, ⟨fundK, false⟩,
   ⟨proposalK, false⟩, ⟨userK, false⟩, ⟨mintK, false⟩, ⟨gtaK, false⟩]

/-- First CastVote call: choice 1, host time 500 (before deadline 1000). -/
def voteCall1 : List Effect × Except PErr World :=
  processInitVoting mb0 pid0 voteAccounts 1 seedA 500 voteWorld

/-- Ledger the first vote leaves behind: only the freshly created
33-zero-byte vote account is new. -/
def voteWorld1 : World := worldSet voteWorld voteK (.zeroed 33)

/-- Second CastVote call by the same voter on the same proposal. -/
def voteCall2 : List Effect × Except PErr World :=
  processInitVoting mb0 pid0 voteAccounts 1 seedA 500 voteWorld1

/-- CastVote call at host time 2000, past the deadline 1000. -/
def voteCallLate : List Effect × Except PErr World :=
  processInitVoting mb0 pid0 voteAccounts 1 seedA 2000 voteWorld

/-- User seed bytes of the deposit scenario. -/
def dSeed : List Nat := [2]

/-- Fund address the deposit flow expects for `dSeed`. -/
def dFundK : Pubkey := fundAddressDeposit dSeed pid0

/-- Vault address the deposit flow expects. -/
def dVaultK : Pubkey := findProgramAddress [vaultTag, dFundK.as_ref] pid0

/-- Member wallet of the deposit scenario. -/
def dMemberK : Pubkey := .raw 8

/-- User-specific PDA the deposit flow expects. -/
def dUserK : Pubkey := findProgramAddress [userPdaTag, dFundK.as_ref, dMemberK.as_ref] pid0

/-- Member governance token account: the associated token account, which
is also the address the first deposit creates. -/
def dGtaK : Pubkey := associatedTokenAddress dMemberK mintK

/-- Fund record of the deposit scenario. -/
def dFd : FundAccount :=
  { members := [dMemberK], total_deposit := 0, governance_mint := mintK,
    vault := dVaultK, is_initialized := true }

/-- Fresh member record of the deposit scenario (no prior deposits, no
token-holding account on record). -/
def dUd : UserspecificAccount :=
  { deposit := 0, governance_token_balance := 0, is_active := false,
    user := .raw 0, governance_token_account := .raw 0, number_of_proposals := 0 }

/-- Ledger before the first deposit: the member has no token-holding
account (its address holds an empty buffer). -/
def depositWorld : World := [(dFundK, .fund dFd), (dUserK, .user dUd)]

/-- Account list of the Deposit calls (member signs). -/
def depositAccounts : List AccountMeta :=
  [⟨mintK, false⟩, ⟨dVaultK, false⟩, ⟨dFundK, false⟩, ⟨sysK, false⟩,
   ⟨tokK, false⟩, ⟨dGtaK, false⟩, ⟨dMemberK, true⟩, ⟨dUserK, false⟩]

/-- First Deposit call, amount 100. -/
def depositCall1 : List Effect × Except PErr World :=
  processInitDepositSol pid0 depositAccounts 100 dSeed depositWorld

/-- Ledger after the first deposit: token account created and holding 100,
fund and member mirrors at 100. -/
def depositWorld1 : World :=
  [(dFundK, .fund { dFd with total_deposit := 100 }),
   (dUserK, .user { deposit := 100, governance_token_balance := 100, is_active := true,
                    user := dUserK, governance_token_account := dGtaK,
                    number_of_proposals := 0 }),
   (dGtaK, .token ⟨100⟩)]

/-- Second Deposit call, amount 50, on the post-first-deposit ledger. -/
def depositCall2 : List Effect × Except PErr World :=
  processInitDepositSol pid0 depositAccounts 50 dSeed depositWorld1

/-- Ledger after the second deposit: only the mirrors moved, the token
account still holds 100. -/
def depositWorld2 : World :=
  [(dFundK, .fund { dFd with total_deposit := 150 }),
   (dUserK, .user { deposit := 150, governance_token_balance := 150, is_active := true,
                    user := dUserK, governance_token_account := dGtaK,
                    number_of_proposals := 0 }),
   (dGtaK, .token ⟨100⟩)]

/-- User seed bytes of the proposal scenarios. -/
def pSeed : List Nat := [3]

/-- Fund address the proposal flow expects for `pSeed`. -/
def pFundK : Pubkey := fundAddressProposal pSeed pid0

/-- Proposer wallet of the proposal scenarios. -/
def proposerK : Pubkey := .raw 9

/-- Proposal address the proposal flow expects. -/
def pPropK : Pubkey := findProgramAddress [proposerPdaTag, pFundK.as_ref, proposerK.as_ref] pid0

/-- User-specific PDA the proposal flow expects (note the `user_69` tag of
this flow). -/
def pUserK : Pubkey := findProgramAddress [user69Tag, pFundK.as_ref, proposerK.as_ref] pid0

/-- Ledger before proposal creation. -/
def proposalWorld : World := [(pUserK, .user dUd)]

/-- Core account list of the CreateProposal calls (proposer signs). -/
def proposalAccounts : List AccountMeta :=
  [⟨proposerK, true⟩, ⟨pPropK, false⟩, ⟨pFundK, false⟩, ⟨pUserK, false⟩, ⟨sysK, false⟩]

/-- CreateProposal call with mismatched parallel sequences: amounts of
length 2, routing tags (dex) of length 1, plus two from-asset and two
to-asset accounts. -/
def proposalCallMismatch : List Effect × Except PErr World :=
  processInitProposalCreation mb0 pid0
    (proposalAccounts ++ [⟨.raw 70, false⟩, ⟨.raw 71, false⟩, ⟨.raw 72, false⟩, ⟨.raw 73, false⟩])
    [1, 2] [0] 2000 pSeed proposalWorld

/-- The proposal record `proposalCallMismatch` persists. -/
def pdMismatch : ProposalAccount :=
  { proposer := proposerK, from_asset := [.raw 70, .raw 71], to_asset := [.raw 72, .raw 73],
    amount := [1, 2], dex := [0], votes_yes := 0, votes_no := 0,
    deadline := 2000, executed := false }

/-- CreateProposal call declaring one leg but supplying no asset accounts. -/
def proposalCallShort : List Effect × Except PErr World :=
  processInitProposalCreation mb0 pid0 proposalAccounts [5] [7] 2000 pSeed proposalWorld

/-- CreateProposal call with zero legs: empty amounts and dex. -/
def proposalCallEmpty : List Effect × Except PErr World :=
  processInitProposalCreation mb0 pid0 proposalAccounts [] [] 2000 pSeed proposalWorld

/-- The zero-leg proposal record `proposalCallEmpty` persists. -/
def pdEmpty : ProposalAccount :=
  { proposer := proposerK, from_asset := [], to_asset := [], amount := [], dex := [],
    votes_yes := 0, votes_no := 0, deadline := 2000, executed := false }

/-- Encoded width of `toLE` is its requested width. -/
theorem toLE_length (n v : Nat) : (toLE n v).length = n := by
  induction n generalizing v with
  | zero => rfl
  | succ n ih => simp [toLE, ih]

/-- Little-endian decode inverts encode below the width bound. -/
theorem fromLE_toLE (n v : Nat) (h : v < 2 ^ (8 * n)) : fromLE (toLE n v) = v := by
  induction n generalizing v with
  | zero => simp [toLE, fromLE]; omega
  | succ n ih =>
    have h8 : 8 * (n + 1) = 8 * n + 8 := by ring
    rw [h8, pow_add] at h
    have hb : v / 256 < 2 ^ (8 * n) := by
      apply Nat.div_lt_of_lt_mul
      omega
    simp [toLE, fromLE, ih (v / 256) hb]
    omega

/-- The two..s-complement views invert each other on the i64 range. -/
theorem i64_roundtrip (d : Int) (h1 : -(2 ^ 63) ≤ d) (h2 : d < 2 ^ 63) :
    natToI64 (i64ToNat d) = d := by
  rw [natToI64, i64ToNat]
  have hnn : 0 ≤ d % 2 ^ 64 := Int.emod_nonneg d (by norm_num)
  have hlt : d % 2 ^ 64 < 2 ^ 64 := Int.emod_lt_of_pos d (by norm_num)
  have hd : d % 2 ^ 64 = d ∨ d % 2 ^ 64 = d + 2 ^ 64 := by omega
  rcases hd with hd | hd <;> · rw [hd]; split <;> omega

/-- The 64-bit pattern of an i64 fits in 64 bits. -/
theorem i64ToNat_lt (d : Int) : i64ToNat d < 2 ^ 64 := by
  rw [i64ToNat]
  have hnn : 0 ≤ d % 2 ^ 64 := Int.emod_nonneg d (by norm_num)
  have hlt : d % 2 ^ 64 < 2 ^ 64 := Int.emod_lt_of_pos d (by norm_num)
  omega

/-- `unpack_amount` on a buffer starting with a full 8-byte field reads
exactly that field. -/
theorem unpack_amount_exact (a : Nat) (rest : List Nat) (h : a < 2 ^ 64) :
    unpack_amount (toLE 8 a ++ rest) = some (.ok (a, rest)) := by
  have hl : (toLE 8 a).length = 8 := toLE_length 8 a
  have hlen : (toLE 8 a ++ rest).length = 8 + rest.length := by simp [hl]
  rw [unpack_amount, if_neg (by omega)]
  rw [List.take_left' hl, List.drop_left' hl]
  rw [tryInto8, if_pos hl]
  simp [fromLE_toLE 8 a (by norm_num; omega)]

/-- `unpack_amount` on fewer than 8 bytes errors. -/
theorem unpack_amount_short (input : List Nat) (h : input.length < 8) :
    unpack_amount input = some (.error .instructionUnpackError) := by
  rw [unpack_amount, if_pos h]

/-- The `expect` in `unpack_amount` is unreachable: the length check
guarantees the `try_into` sees exactly 8 bytes. -/
theorem unpack_amount_not_none (input : List Nat) : unpack_amount input ≠ none := by
  rw [unpack_amount]
  by_cases h : input.length < 8
  · simp [h]
  · rw [if_neg h, tryInto8, if_pos]
    · simp
    · simp; omega

/-- `unpack_deadline` on a buffer starting with the full encoded i64 reads
back the deadline. -/
theorem unpack_deadline_exact (d : Int) (rest : List Nat)
    (h1 : -(2 ^ 63) ≤ d) (h2 : d < 2 ^ 63) :
    unpack_deadline (toLE 8 (i64ToNat d) ++ rest) = some (.ok (d, rest)) := by
  have hl : (toLE 8 (i64ToNat d)).length = 8 := toLE_length 8 _
  have hlen : (toLE 8 (i64ToNat d) ++ rest).length = 8 + rest.length := by simp [hl]
  rw [unpack_deadline, if_neg (by omega)]
  rw [List.take_left' hl, List.drop_left' hl]
  rw [tryInto8, if_pos hl]
  have hb : i64ToNat d < 2 ^ (8 * 8) := by
    have := i64ToNat_lt d
    norm_num
    omega
  simp [fromLE_toLE 8 _ hb, i64_roundtrip d h1 h2]

/-- `unpack_deadline` on fewer than 8 bytes errors. -/
theorem unpack_deadline_short (input : List Nat) (h : input.length < 8) :
    unpack_deadline input = some (.error .instructionUnpackError) := by
  rw [unpack_deadline, if_pos h]

/-- The `expect` in `unpack_deadline` is unreachable. -/
theorem unpack_deadline_not_none (input : List Nat) : unpack_deadline input ≠ none := by
  rw [unpack_deadline]
  by_cases h : input.length < 8
  · simp [h]
  · rw [if_neg h, tryInto8, if_pos]
    · simp
    · simp; omega

/-- Length of the concatenated amount encodings. -/
theorem amountsBytes_length (l : List Nat) : (amountsBytes l).length = 8 * l.length := by
  induction l with
  | nil => rfl
  | cons a t ih => simp [amountsBytes, ih, toLE_length]; ring

/-- `rbind` cannot introduce a panic. -/
theorem rbind_not_none {A B : Type} (x : Res A) (f : A → Res B)
    (hx : x ≠ none) (hf : ∀ a, f a ≠ none) : rbind x f ≠ none := by
  rcases x with _ | e
  · exact absurd rfl hx
  · cases e with
    | error e => simp [rbind]
    | ok a => simpa [rbind] using hf a

/-- The amount loop reads back exactly the encoded amounts. -/
theorem amountsGo_exact (l : List Nat) (rest : List Nat) (h : ∀ a ∈ l, a < 2 ^ 64) :
    amountsGo l.length (amountsBytes l ++ rest) = some (.ok (l, rest)) := by
  induction l with
  | nil => rfl
  | cons a t ih =>
    have ha : a < 2 ^ 64 := h a (List.mem_cons_self a t)
    have ht : ∀ x ∈ t, x < 2 ^ 64 := fun x hx => h x (List.mem_cons_of_mem a hx)
    show amountsGo (t.length + 1) ((toLE 8 a ++ amountsBytes t) ++ rest) = _
    rw [List.append_assoc]
    rw [amountsGo, unpack_amount_exact a _ ha]
    rw [rbind]
    rw [ih ht, rbind]

/-- `unpack_amounts` reads back exactly the encoded amounts. -/
theorem unpack_amounts_exact (l : List Nat) (rest : List Nat) (h : ∀ a ∈ l, a < 2 ^ 64) :
    unpack_amounts (amountsBytes l ++ rest) l.length = some (.ok (l, rest)) := by
  rw [unpack_amounts, if_neg]
  · exact amountsGo_exact l rest h
  · simp [amountsBytes_length]

/-- `unpack_amounts` on a buffer shorter than the declared amounts errors. -/
theorem unpack_amounts_short (input : List Nat) (n : Nat) (h : input.length < 8 * n) :
    unpack_amounts input n = some (.error .instructionUnpackError) := by
  rw [unpack_amounts, if_pos h]

/-- The amount loop never panics. -/
theorem amountsGo_not_none (n : Nat) (input : List Nat) : amountsGo n input ≠ none := by
  induction n generalizing input with
  | zero => simp [amountsGo]
  | succ n ih =>
    rw [amountsGo]
    refine rbind_not_none _ _ (unpack_amount_not_none input) fun a => ?_
    exact rbind_not_none _ _ (ih a.2) fun p => by simp

/-- `unpack_amounts` never panics. -/
theorem unpack_amounts_not_none (input : List Nat) (n : Nat) : unpack_amounts input n ≠ none := by
  rw [unpack_amounts]
  split
  · simp
  · exact amountsGo_not_none n input

/-- The seed loop reads back exactly a prefix of its own length. -/
theorem seedGo_exact (pre rest : List Nat) :
    seedGo pre.length (pre ++ rest) = some (.ok (pre, rest)) := by
  induction pre with
  | nil => rfl
  | cons b t ih =>
    show seedGo (t.length + 1) (b :: (t ++ rest)) = _
    rw [seedGo, ih, rbind]

/-- The seed loop never panics. -/
theorem seedGo_not_none (n : Nat) (input : List Nat) : seedGo n input ≠ none := by
  induction n generalizing input with
  | zero => simp [seedGo]
  | succ n ih =>
    cases input with
    | nil => simp [seedGo]
    | cons b r =>
      rw [seedGo]
      exact rbind_not_none _ _ (ih r) fun p => by simp

/-- `unpack_seed` reads back exactly a 32-byte seed. -/
theorem unpack_seed_exact (seed rest : List Nat) (h : seed.length = 32) :
    unpack_seed (seed ++ rest) = some (.ok (seed, rest)) := by
  rw [unpack_seed, if_neg (by simp [h])]
  rw [← h, seedGo_exact]

/-- `unpack_seed` on fewer than 32 bytes errors. -/
theorem unpack_seed_short (input : List Nat) (h : input.length < 32) :
    unpack_seed input = some (.error .instructionUnpackError) := by
  rw [unpack_seed, if_pos h]

/-- `unpack_seed` never panics. -/
theorem unpack_seed_not_none (input : List Nat) : unpack_seed input ≠ none := by
  rw [unpack_seed]
  split
  · simp
  · exact seedGo_not_none 32 input

/-- The trailing text read never panics. -/
theorem trailingName_not_none (rest : List Nat) : trailingName rest ≠ none := by
  rw [trailingName]; split <;> simp

/-- `unpack_members` never panics. -/
theorem unpack_members_not_none (input : List Nat) : unpack_members input ≠ none := by
  cases input <;> simp [unpack_members]

/-- Claim C1. The claim says every CreateProposal validation — the
parallel-sequence length check and the leg-count asset-account checks
included — completes before the first externally visible side effect, and a
length mismatch fails with LengthMismatch before any account is created.
The code does the opposite at a concrete input: with amounts of length 2
and routing tags of length 1 the flow performs no length comparison at all
and succeeds, creating the proposal account and persisting the mismatched
sequences; and with one declared leg but no supplied asset accounts the
proposal account creation effect is already issued before the
insufficient-accounts failure. -/
theorem c1_proposal_effect_precedes_checks :
    proposalCallMismatch =
      ([Effect.createAccount proposerK pPropK (mb0 189) 189 pid0],
       .ok (worldSet proposalWorld pPropK (.proposal pdMismatch))) ∧
    proposalCallShort = ([Effect.createAccount proposerK pPropK (mb0 116) 116 pid0],
       .error .invalidAccountData) := ⟨rfl, rfl⟩

/-- Claim C2. The claim says both deposits transfer the value into the
vault and mint 1:1, and the final governance-token balance is 150. In the
code the account creation, the transfer and the mint all sit inside the
first-deposit branch: the first deposit (100) issues the three effects, the
second deposit (50) issues none, so the real token balance stays at 100
while the member mirror and Fund.total_deposit read 150. -/
theorem c2_second_deposit_moves_only_mirrors :
    depositCall1 = ([Effect.createATA dMemberK dMemberK mintK,
                     Effect.transfer dMemberK dVaultK 100,
                     Effect.mintTo mintK dGtaK dFundK 100], .ok depositWorld1) ∧
    depositCall2 = ([], .ok depositWorld2) ∧
    tokenAmountAt depositWorld2 dGtaK = 100 ∧
    mirrorBalanceAt depositWorld2 dUserK = 150 ∧
    totalDepositAt depositWorld2 dFundK = 150 := ⟨rfl, rfl, rfl, rfl, rfl⟩

/-- Claim C3. The claim says a successful CastVote persists (voter, choice,
voting power) to the vote account storage. In the code the record is
computed on a local deserialized copy that is never serialized back: the
call succeeds, yet the vote account still holds its 33 freshly zeroed
bytes and no vote record. -/
theorem c3_vote_snapshot_never_persisted :
    voteCall1 = ([Effect.createAccount voterK voteK (mb0 33) 33 sysK], .ok voteWorld1) ∧
    worldGet voteWorld1 voteK = .zeroed 33 := ⟨rfl, rfl⟩

/-- Claim C4 counterexample. At the concrete second CastVote of the
scenario the call fails, but with the error the processor names
InvalidInstruction, not with AlreadyVoted as the claim states. -/
theorem c4_second_vote_not_alreadyvoted_kind :
    voteCall2 = ([], .error .invalidInstruction) ∧
    (PErr.invalidInstruction ≠ PErr.alreadyVoted) := ⟨rfl, by decide⟩

/-- Claim C4, amended. A second CastVote by the same voter on the same
proposal — any call that reaches the guard with a non-empty vote account,
which is the sole re-vote guard — fails with InvalidInstruction (the
processor logs "Already voted!" but returns that variant), issues no
external effect, and therefore leaves the tallies and the vote account
from the first call unchanged. -/
theorem c4_vote_guard_rejects_second_vote (mb : Nat → Nat) (programId voterKey : Pubkey)
    (voteA sysA gtaA : AccountMeta) (restA : List AccountMeta)
    (vote : Nat) (user_seed : List Nat) (now : Int)
    (w : World) (fd : FundAccount) (pd : ProposalAccount) (ud : UserspecificAccount)
    (hf : tryFund (worldGet w (fundAddressVoting user_seed programId)) = .ok fd)
    (hp : tryProposal (worldGet w (findProgramAddress
      [proposalPdaTag, (fundAddressVoting user_seed programId).as_ref, voterKey.as_ref]
      programId)) = .ok pd)
    (hu : tryUser (worldGet w (findProgramAddress
      [userPdaTag, (fundAddressVoting user_seed programId).as_ref, voterKey.as_ref]
      programId)) = .ok ud)
    (hd : ¬ pd.deadline < now)
    (h5 : associatedTokenAddress voterKey fd.governance_mint = ud.governance_token_account)
    (hne : isEmptyData (worldGet w voteA.key) = false) :
    processInitVoting mb programId
      (⟨voterKey, true⟩ :: voteA :: sysA ::
        ⟨fundAddressVoting user_seed programId, false⟩ ::
        ⟨findProgramAddress
          [proposalPdaTag, (fundAddressVoting user_seed programId).as_ref, voterKey.as_ref]
          programId, false⟩ ::
        ⟨findProgramAddress
          [userPdaTag, (fundAddressVoting user_seed programId).as_ref, voterKey.as_ref]
          programId, false⟩ ::
        ⟨fd.governance_mint, false⟩ :: gtaA :: restA)
      vote user_seed now w = ([], .error .invalidInstruction) := by
  simp [processInitVoting, hf, hp, hu, hd, h5, hne]

/-- Claim C4 witness: the amended guard theorem applied to the concrete
second CastVote of the scenario (on the ledger the first vote left). -/
theorem c4_vote_guard_rejects_second_vote_witness :
    voteCall2 = ([], .error .invalidInstruction) := by
  exact c4_vote_guard_rejects_second_vote mb0 pid0 voterK ⟨voteK, false⟩ ⟨sysK, false⟩
    ⟨gtaK, false⟩ [] 1 seedA 500 voteWorld1 fd0 pd0 ud0 rfl rfl rfl (by decide) rfl rfl

/-- Claim C5 counterexample. At a concrete CastVote whose host time 2000
is past the deadline 1000 the call fails, but with the error the processor
names InvalidInstruction, not with DeadlinePassed as the claim states. -/
theorem c5_late_vote_not_deadlinepassed_kind :
    voteCallLate = ([], .error .invalidInstruction) ∧
    (PErr.invalidInstruction ≠ PErr.deadlinePassed) := ⟨rfl, by decide⟩

/-- Claim C5, amended. Every CastVote whose host-supplied current time is
past proposal.deadline and that reaches the deadline check (signing voter,
readable fund, proposal and member records) fails with InvalidInstruction,
with an empty effect trace — so no vote record is created and no state
changes. -/
theorem c5_late_vote_rejected_before_effects (mb : Nat → Nat) (programId : Pubkey)
    (voterA voteA sysA fundA proposalA userA mintA gtaA : AccountMeta)
    (restA : List AccountMeta) (vote : Nat) (user_seed : List Nat) (now : Int)
    (w : World) (fd : FundAccount) (pd : ProposalAccount) (ud : UserspecificAccount)
    (hs : voterA.isSigner = true)
    (hf : tryFund (worldGet w fundA.key) = .ok fd)
    (hp : tryProposal (worldGet w proposalA.key) = .ok pd)
    (hu : tryUser (worldGet w userA.key) = .ok ud)
    (hd : pd.deadline < now) :
    processInitVoting mb programId
      (voterA :: voteA :: sysA :: fundA :: proposalA :: userA :: mintA :: gtaA :: restA)
      vote user_seed now w = ([], .error .invalidInstruction) := by
  simp [processInitVoting, hs, hf, hp, hu, hd]

/-- Claim C5 witness: the amended theorem applied to the concrete
past-deadline CastVote of the scenario. -/
theorem c5_late_vote_rejected_before_effects_witness :
    voteCallLate = ([], .error .invalidInstruction) := by
  exact c5_late_vote_rejected_before_effects mb0 pid0 _ _ _ _ _ _ _ _ [] 1 seedA 2000
    voteWorld fd0 pd0 ud0 rfl rfl rfl rfl (by decide)

/-- Claim C6. The claim (and the spec) say a CreateProposal whose leg
count is zero must be rejected by the processor. The code has no such
check: with empty amounts the flow succeeds, creates a 43-byte proposal
account and persists a proposal whose four sequences are all empty. -/
theorem c6_zero_leg_proposal_accepted :
    proposalCallEmpty = ([Effect.createAccount proposerK pPropK (mb0 43) 43 pid0],
       .ok (worldSet proposalWorld pPropK (.proposal pdEmpty))) ∧
    pdEmpty.amount = [] := ⟨rfl, rfl⟩

/-- Claim C7. The claim says the fund address is derived as
derive(seed, "fund") identically in every flow. In the code the four flows
disagree on seed order and tag for the same seed bytes: CreateFund uses
[seed, "fund"], Deposit uses ["fund", seed], CreateProposal and CastVote
use ["fund_pda", seed] — three mutually distinct addresses (only the last
two agree). -/
theorem c7_fund_address_derivations_disagree :
    fundAddressCreate seedA pid0 ≠ fundAddressDeposit seedA pid0 ∧
    fundAddressCreate seedA pid0 ≠ fundAddressProposal seedA pid0 ∧
    fundAddressDeposit seedA pid0 ≠ fundAddressProposal seedA pid0 ∧
    fundAddressProposal seedA pid0 = fundAddressVoting seedA pid0 := by
  refine ⟨?_, ?_, ?_, rfl⟩ <;> decide

/-- Claim C8. CreateFund with 3 signing members: writing C for the total
storage cost of the fund record (sized for 3 members: 73 + 32·3 = 169
bytes), the vault (165 bytes) and the mint (82 bytes), every member is
charged exactly ⌊C/3⌋ by the integer division of the source, each charge
is transferred to the supplied protocol funding (rent) account, and the
sum of the three charges differs from C by at most 2 units. -/
theorem c8_rent_split_floor_within_two (mb : Nat → Nat)
    (programId mintKey sysKey tokKey rentKey k1 k2 k3 : Pubkey)
    (user_seeds : List Nat) (w : World) :
    (processInitFundAccount mb programId
      (⟨mintKey, false⟩ ::
       ⟨findProgramAddress [vaultTag, (fundAddressCreate user_seeds programId).as_ref] programId, false⟩ ::
       ⟨sysKey, false⟩ :: ⟨tokKey, false⟩ ::
       ⟨fundAddressCreate user_seeds programId, false⟩ :: ⟨rentKey, false⟩ ::
       [⟨k1, true⟩, ⟨k2, true⟩, ⟨k3, true⟩]) 3 user_seeds w).fst =
      [Effect.transfer k1 rentKey (((mb 169 + mb 165 + mb 82) % 2 ^ 64) / 3),
       Effect.transfer k2 rentKey (((mb 169 + mb 165 + mb 82) % 2 ^ 64) / 3),
       Effect.transfer k3 rentKey (((mb 169 + mb 165 + mb 82) % 2 ^ 64) / 3),
       Effect.createAccount rentKey (fundAddressCreate user_seeds programId) (mb 169) 169 programId,
       Effect.createAccount rentKey
         (findProgramAddress [vaultTag, (fundAddressCreate user_seeds programId).as_ref] programId)
         (mb 165) 165 tokKey,
       Effect.createAccount rentKey mintKey (mb 82) 82 tokKey,
       Effect.initMint mintKey (fundAddressCreate user_seeds programId) 6] ∧
    ((((mb 169 + mb 165 + mb 82) % 2 ^ 64) / 3 = ((mb 169 + mb 165 + mb 82) % 2 ^ 64) / 3)
      ∨ (((mb 169 + mb 165 + mb 82) % 2 ^ 64) / 3 = (((mb 169 + mb 165 + mb 82) % 2 ^ 64) + 2) / 3)) ∧
    3 * (((mb 169 + mb 165 + mb 82) % 2 ^ 64) / 3) ≤ (mb 169 + mb 165 + mb 82) % 2 ^ 64 ∧
    ((mb 169 + mb 165 + mb 82) % 2 ^ 64) - 3 * (((mb 169 + mb 165 + mb 82) % 2 ^ 64) / 3) ≤ 2 := by
  refine ⟨?_, Or.inl rfl, ?_, ?_⟩
  · simp [processInitFundAccount]
  · omega
  · omega

/-- Claim C9. For every command the decoder can produce, with well-formed
field values (fields fit their fixed widths, trailing text is valid UTF-8,
the Vote seed is exactly 32 bytes), decoding the encoding returns the same
command; and decoding any buffer obtained by truncating the encoding
inside the opcode byte or any fixed-width field returns an error (never a
partial result and never a panic). -/
theorem c9_roundtrip_and_truncation (cmd : FundInstruction) (h : wfWire cmd = true) :
    unpack (pack cmd) = some (.ok cmd) ∧
    ∀ k ∈ fixedCuts cmd, isErrRes (unpack ((pack cmd).take k)) = true := by
  cases cmd with
  | InitFundAccount privacy name =>
    simp only [wfWire, Bool.and_eq_true, decide_eq_true_eq] at h
    constructor
    · simp [pack, unpack, unpack_members, rbind, trailingName, h.2]
    · intro k hk
      simp only [fixedCuts, List.mem_cons, List.mem_singleton] at hk
      rcases hk with rfl | rfl | hk
      · simp [unpack, isErrRes]
      · simp [pack, unpack, unpack_members, rbind, isErrRes]
      · simp at hk
  | InitDepositSol a name =>
    simp only [wfWire, Bool.and_eq_true, decide_eq_true_eq] at h
    constructor
    · show unpack (1 :: (toLE 8 a ++ name)) = _
      simp only [unpack]
      rw [unpack_amount_exact a name h.1]
      simp [rbind, trailingName, h.2]
    · intro k hk
      simp only [fixedCuts, List.mem_range] at hk
      cases k with
      | zero => simp [unpack, isErrRes]
      | succ k =>
        show isErrRes (unpack (1 :: (toLE 8 a ++ name).take k)) = true
        simp only [unpack]
        rw [unpack_amount_short _ (by simp [List.length_take]; omega)]
        rfl
  | InitDepositToken a name =>
    simp only [wfWire, Bool.and_eq_true, decide_eq_true_eq] at h
    constructor
    · show unpack (8 :: (toLE 8 a ++ name)) = _
      simp only [unpack]
      rw [unpack_amount_exact a name h.1]
      simp [rbind, trailingName, h.2]
    · intro k hk
      simp only [fixedCuts, List.mem_range] at hk
      cases k with
      | zero => simp [unpack, isErrRes]
      | succ k =>
        show isErrRes (unpack (8 :: (toLE 8 a ++ name).take k)) = true
        simp only [unpack]
        rw [unpack_amount_short _ (by simp [List.length_take]; omega)]
        rfl
  | InitProposalInvestment amounts d name =>
    simp only [wfWire, Bool.and_eq_true, decide_eq_true_eq, List.all_eq_true] at h
    obtain ⟨⟨⟨⟨hm, hall⟩, hd1⟩, hd2⟩, hn⟩ := h
    have hall2 : ∀ a ∈ amounts, a < 2 ^ 64 := fun a ha => by
      have := hall a ha; simpa using this
    constructor
    · show unpack (2 :: amounts.length ::
        (amountsBytes amounts ++ toLE 8 (i64ToNat d) ++ name)) = _
      simp only [unpack, unpack_members, rbind]
      rw [List.append_assoc, unpack_amounts_exact amounts _ hall2]
      simp only [rbind]
      rw [unpack_deadline_exact d name hd1 hd2]
      simp [rbind, trailingName, hn]
    · intro k hk
      simp only [fixedCuts, List.mem_range] at hk
      cases k with
      | zero => simp [unpack, isErrRes]
      | succ k =>
        cases k with
        | zero =>
          show isErrRes (unpack [2]) = true
          decide
        | succ k =>
          show isErrRes (unpack (2 :: amounts.length ::
            (amountsBytes amounts ++ toLE 8 (i64ToNat d) ++ name).take k)) = true
          simp only [unpack, unpack_members, rbind]
          by_cases hcut : k < 8 * amounts.length
          · rw [unpack_amounts_short _ _ (by simp [List.length_take]; omega)]
            rfl
          · rw [List.append_assoc, List.take_append_eq_append_take,
              List.take_of_length_le (by simp [amountsBytes_length]; omega)]
            rw [unpack_amounts, if_neg (by simp [amountsBytes_length, List.length_take])]
            rw [amountsGo_exact amounts _ hall2]
            simp only [rbind]
            rw [unpack_deadline_short _ (by
              simp [List.length_take, amountsBytes_length]
              omega)]
            rfl
  | Vote v seed =>
    simp only [wfWire, Bool.and_eq_true, decide_eq_true_eq, List.all_eq_true] at h
    obtain ⟨⟨hv, hlen⟩, hbytes⟩ := h
    constructor
    · show unpack (3 :: v :: seed) = _
      simp only [unpack, unpack_members, rbind]
      have := unpack_seed_exact seed [] hlen
      rw [List.append_nil] at this
      rw [this]
    · intro k hk
      simp only [fixedCuts, List.mem_range] at hk
      cases k with
      | zero => simp [unpack, isErrRes]
      | succ k =>
        cases k with
        | zero =>
          show isErrRes (unpack [3]) = true
          decide
        | succ k =>
          show isErrRes (unpack (3 :: v :: seed.take k)) = true
          simp only [unpack, unpack_members, rbind]
          rw [unpack_seed_short _ (by simp [List.length_take]; omega)]
          rfl
  | AddFundMember name =>
    simp only [wfWire] at h
    refine ⟨by simp [pack, unpack, rbind, trailingName, h], ?_⟩
    intro k hk
    simp only [fixedCuts, List.mem_singleton] at hk
    subst hk
    simp [unpack, isErrRes]
  | LeaveFund name =>
    simp only [wfWire] at h
    refine ⟨by simp [pack, unpack, rbind, trailingName, h], ?_⟩
    intro k hk
    simp only [fixedCuts, List.mem_singleton] at hk
    subst hk
    simp [unpack, isErrRes]
  | InitUserAccount => exact ⟨rfl, by decide⟩
  | DeleteFund => exact ⟨rfl, by decide⟩
  | InitRentAccount => exact ⟨rfl, by decide⟩
  | ExecuteProposalInvestment => exact ⟨rfl, by decide⟩
  | Execute p => simp [wfWire] at h

/-- Claim C9 witness: the round-trip and truncation theorem applied to a
concrete well-formed Deposit command (amount 5, fund name "ab"). -/
theorem c9_roundtrip_and_truncation_witness :
    wfWire (.InitDepositSol 5 [97, 98]) = true ∧
    unpack (pack (.InitDepositSol 5 [97, 98])) = some (.ok (.InitDepositSol 5 [97, 98])) ∧
    ∀ k ∈ fixedCuts (FundInstruction.InitDepositSol 5 [97, 98]),
      isErrRes (unpack ((pack (.InitDepositSol 5 [97, 98])).take k)) = true := by
  refine ⟨by decide, ?_, ?_⟩
  · exact (c9_roundtrip_and_truncation _ (by decide)).1
  · exact (c9_roundtrip_and_truncation _ (by decide)).2

/-- Claim C10. `FundInstruction::unpack` is total on every input byte
buffer: it returns a decoded command or an error and never reaches a
panic — in particular the `expect` conversions behind the 8-byte splits
(modelled as the `none` outcome) are unreachable. -/
theorem c10_unpack_total_no_panic (input : List Nat) : unpack input ≠ none := by
  cases input with
  | nil => simp [unpack]
  | cons tag rest =>
    rcases tag with _ | _ | _ | _ | _ | _ | _ | _ | _ | _ | _ | t
    · exact rbind_not_none _ _ (unpack_members_not_none rest) fun pr =>
        rbind_not_none _ _ (trailingName_not_none pr.2) fun name => by simp
    · exact rbind_not_none _ _ (unpack_amount_not_none rest) fun ar =>
        rbind_not_none _ _ (trailingName_not_none ar.2) fun name => by simp
    · exact rbind_not_none _ _ (unpack_members_not_none rest) fun nr =>
        rbind_not_none _ _ (unpack_amounts_not_none nr.2 nr.1) fun ar =>
          rbind_not_none _ _ (unpack_deadline_not_none ar.2) fun dr =>
            rbind_not_none _ _ (trailingName_not_none dr.2) fun name => by simp
    · exact rbind_not_none _ _ (unpack_members_not_none rest) fun vr =>
        rbind_not_none _ _ (unpack_seed_not_none vr.2) fun sr => by simp
    · exact rbind_not_none _ _ (trailingName_not_none rest) fun name => by simp
    · simp [unpack]
    · simp [unpack]
    · simp [unpack]
    · exact rbind_not_none _ _ (unpack_amount_not_none rest) fun ar =>
        rbind_not_none _ _ (trailingName_not_none ar.2) fun name => by simp
    · simp [unpack]
    · exact rbind_not_none _ _ (trailingName_not_none rest) fun name => by simp
    · simp [unpack]
